import Mathlib

/-!
# Kraken — incremental Slack-sync and vector-retrieval pipeline: shallow embedding

Shallow embedding, in Lean 4, of the parts of the Kraken source that the
frozen claims are about:

* `src/kraken/embeddings.py` — `EmbeddingCache` (content-addressed cache),
* `src/kraken/sync_tracker.py` — `SyncTracker` (outcome log and alerting),
* `src/kraken/retry.py` — `is_transient_error`, `with_retry`,
* `src/kraken/slack_sync.py` — `enrich_messages`,
* `src/kraken/scheduler.py` — `sync_job`, `SyncScheduler.add_hourly_sync`,
* `src/kraken/mcp_server.py` — `handle_search_messages`,
* `scripts/test_vector_search.py` — `search_messages` (client-side fallback search).

Conventions: Python floats carrying epoch seconds, Slack timestamps and
embedding coordinates are modelled as exact rationals (`ℚ`); fallible calls
are modelled as `Except`; file writes are modelled as returning the new
persisted state (a write that raises inside a `try/except pass` block is
indistinguishable, to every claim considered here, from one that succeeds).
-/

namespace Kraken

/-! ## Embedding cache (`src/kraken/embeddings.py`, class `EmbeddingCache`) -/

/-- One value of the cache dictionary: `{"text": ..., "embedding": ...,
"model": ..., "timestamp": ...}` as written by `EmbeddingCache.set`. -/
structure CacheEntry where
  text : String
  embedding : List ℚ
  model : String
  timestamp : Nat
  deriving Repr, DecidableEq

/-- The in-memory dictionary of `EmbeddingCache` together with the
process-local hit/miss counters. The dictionary is modelled as an
association list keyed by the cache key (later bindings shadow earlier
ones, as Python dict assignment overwrites). -/
structure EmbeddingCache where
  cache : List (String × CacheEntry)
  hits : Nat
  misses : Nat
  deriving Repr, DecidableEq

/-- `EmbeddingCache._key`: the source computes
`hashlib.sha256(f"{model}:{text}".encode()).hexdigest()`. The SHA-256 hex
digest is modelled as the identity on its preimage string `model ++ ":" ++ text`:
the digest is a deterministic function of that string, and the development
idealises it as injective (collision-freeness of SHA-256), which is exactly
the assumption the source makes. -/
def cacheKey (text model : String) : String :=
  model ++ ":" ++ text

/-- Dictionary lookup `key in self.cache` / `self.cache[key]`. -/
def dictFind (cache : List (String × CacheEntry)) (key : String) : Option CacheEntry :=
  match cache with
  | [] => none
  | (k, v) :: rest => if k = key then some v else dictFind rest key

/-- Dictionary assignment `self.cache[key] = value` (overwrite or add). -/
def dictInsert (cache : List (String × CacheEntry)) (key : String) (v : CacheEntry) :
    List (String × CacheEntry) :=
  match cache with
  | [] => [(key, v)]
  | (k, w) :: rest => if k = key then (k, v) :: rest else (k, w) :: dictInsert rest key v

/-- `EmbeddingCache.get(text, model)`: look up the key; on a hit bump `hits`
and return the stored `"embedding"` field, on a miss bump `misses` and
return `None`. -/
def cache_get (c : EmbeddingCache) (text model : String) :
    Option (List ℚ) × EmbeddingCache :=
  match dictFind c.cache (cacheKey text model) with
  | some entry => (some entry.embedding, { c with hits := c.hits + 1 })
  | none => (none, { c with misses := c.misses + 1 })

/-- `EmbeddingCache.set(text, model, embedding)`: store the entry under the
key and persist (`_save` rewrites the whole file; persistence is the
returned state). `now` is `int(time.time())`. -/
def cache_set (c : EmbeddingCache) (text model : String) (embedding : List ℚ)
    (now : Nat) : EmbeddingCache :=
  let entry : CacheEntry :=
    { text := text, embedding := embedding, model := model, timestamp := now }
  { c with cache := dictInsert c.cache (cacheKey text model) entry }

/-! ## Sync tracker (`src/kraken/sync_tracker.py`, class `SyncTracker`) -/

/-- The persisted tracker state: `last_success`, `last_failure`
(ISO strings), `consecutive_failures`, and the `failures_24h` list of epoch
seconds (floats, modelled as `ℚ`). -/
structure TrackerState where
  last_success : Option String
  last_failure : Option String
  consecutive_failures : Nat
  failures_24h : List ℚ
  deriving Repr, DecidableEq

/-- The zero state `_load` falls back to on a missing or corrupt file. -/
def TrackerState.initial : TrackerState :=
  { last_success := none, last_failure := none
    consecutive_failures := 0, failures_24h := [] }

/-- `SyncTracker.record_success`: set `last_success`, reset
`consecutive_failures` to 0, save. `nowIso` is `datetime.now().isoformat()`.
Note: the `failures_24h` window is left untouched — `record_success` does
not prune it. -/
def record_success (s : TrackerState) (nowIso : String) : TrackerState :=
  { s with last_success := some nowIso, consecutive_failures := 0 }

/-- `SyncTracker.record_failure`: set `last_failure`, increment
`consecutive_failures`, prune window entries `ts` with `ts ≤ now - 86400`
(the source keeps `ts > cutoff` where `cutoff = (now - timedelta(days=1)).timestamp()`),
append `now`, save. `now` is the current epoch-seconds value and `nowIso`
its ISO rendering. -/
def record_failure (s : TrackerState) (now : ℚ) (nowIso : String) : TrackerState :=
  let cutoff : ℚ := now - 86400
  { s with
    last_failure := some nowIso
    consecutive_failures := s.consecutive_failures + 1
    failures_24h := (s.failures_24h.filter fun ts => cutoff < ts) ++ [now] }

/-- The critical alert string `should_alert` builds when
`consecutive_failures >= 3`. -/
def criticalMsg (consecutive : Nat) : String :=
  "🚨 ALERT: " ++ toString consecutive ++ " consecutive sync failures - check config/auth"

/-- The warning string `should_alert` builds when `len(failures_24h) >= 10`. -/
def warningMsg (failures24h : Nat) : String :=
  "⚠️  ALERT: " ++ toString failures24h ++ " failures in last 24 hours - API instability?"

/-- `SyncTracker.should_alert`: critical when `consecutive_failures >= 3`,
else warning when `len(failures_24h) >= 10`, else `None`. -/
def should_alert (s : TrackerState) : Option String :=
  if s.consecutive_failures ≥ 3 then some (criticalMsg s.consecutive_failures)
  else if s.failures_24h.length ≥ 10 then some (warningMsg s.failures_24h.length)
  else none

/-! ## Retry executor (`src/kraken/retry.py`) -/

/-- A raised Python exception, as far as `is_transient_error` can see it:
`str(e)` and `type(e).__name__`. -/
structure PyError where
  msg : String
  typeName : String
  deriving Repr, DecidableEq

/-- The fixed `TRANSIENT_KEYWORDS` tuple. -/
def TRANSIENT_KEYWORDS : List String :=
  ["ratelimited", "rate_limit", "service_unavailable", "connection", "timeout",
   "temporary", "503", "502", "504", "writeerror", "readtimeout"]

/-- Python's substring test `sub in s`, over the character lists. -/
def containsSub (s sub : List Char) : Bool :=
  match s with
  | [] => sub.isEmpty
  | _ :: t => sub.isPrefixOf s || containsSub t sub

/-- Python `str.lower()` on one character; error texts and the keyword
table are ASCII, so the ASCII case fold is the relevant fragment. -/
def pyLowerChar (c : Char) : Char :=
  if 65 ≤ c.toNat ∧ c.toNat ≤ 90 then Char.ofNat (c.toNat + 32) else c

/-- Python `s.lower()`, as a character list. -/
def pyLower (s : String) : List Char :=
  s.data.map pyLowerChar

/-- `is_transient_error`: some keyword occurs in `str(e).lower()` or in
`type(e).__name__.lower()` (case-insensitive substring match). -/
def is_transient_error (e : PyError) : Bool :=
  TRANSIENT_KEYWORDS.any fun kw =>
    containsSub (pyLower e.msg) kw.data || containsSub (pyLower e.typeName) kw.data

/-- Outcome of `with_retry`: the returned value, the raised error, or the
`raise last_error` after a loop that never ran (`max_retries = 0`, where
`last_error` is still `None` and Python raises a `TypeError`). The model
also counts how many times `func` was called. -/
inductive RetryResult (α : Type) where
  | ok (v : α) (calls : Nat)
  | err (e : PyError) (calls : Nat)
  | raisedNone
  deriving Repr, DecidableEq

/-- The body of `with_retry`'s `for attempt in range(max_retries)` loop,
starting at iteration `attempt` with `fuel = max_retries - attempt`
iterations left. The operation is modelled as a map from the call index to
that call's outcome (`func` takes no arguments; successive calls may
differ). A non-transient error, or a transient error on the last allowed
attempt, is re-raised; otherwise the loop sleeps `backoff_base ** attempt`
(irrelevant to the result) and continues. -/
def retryLoop (op : Nat → Except PyError α) (max_retries : Nat) :
    (fuel attempt : Nat) → RetryResult α
  | 0, _ => .raisedNone
  | fuel + 1, attempt =>
    match op attempt with
    | .ok v => .ok v (attempt + 1)
    | .error e =>
      if is_transient_error e = false then .err e (attempt + 1)
      else if max_retries - 1 ≤ attempt then .err e (attempt + 1)
      else retryLoop op max_retries fuel (attempt + 1)

/-- `with_retry(func, max_retries, backoff_base, operation_name)`. -/
def with_retry (op : Nat → Except PyError α) (max_retries : Nat) : RetryResult α :=
  retryLoop op max_retries max_retries 0

/-! ## Message enricher (`src/kraken/slack_sync.py`, `enrich_messages`) -/

/-- A raw Slack message as `enrich_messages` reads it: each field is
`none` when the key is absent from the dict. -/
structure RawMsg where
  subtype : Option String
  text : Option String
  user : Option String
  ts : Option String
  thread_ts : Option String
  type : Option String
  deriving Repr, DecidableEq

/-- Python truthiness of `msg.get(key)` for an optional string field:
falsy when the key is absent (`None`) or the value is the empty string. -/
def truthy : Option String → Bool
  | none => false
  | some s => !(s = "")

/-- The `metadata` dict built for each enriched message. -/
structure MsgMetadata where
  type : String
  user_id : String
  deriving Repr, DecidableEq

/-- One enriched message record, as appended by `enrich_messages`. -/
structure EnrichedMsg where
  slack_message_id : String
  content : String
  author : String
  channel : String
  timestamp : String
  thread_ts : Option String
  permalink : String
  metadata : MsgMetadata
  deriving Repr, DecidableEq

/-- The user snapshot `_get_user_map` returns: `user_id -> real_name`,
modelled as an association list (Python dict `.get(k, default)`). -/
def userMapGet (umap : List (String × String)) (key dflt : String) : String :=
  match umap with
  | [] => dflt
  | (k, v) :: rest => if k = key then v else userMapGet rest key dflt

/-- Membership of a key in the user map (`key in dict` semantics: the
first binding wins on lookup, matching `userMapGet`). -/
def userMapHas (umap : List (String × String)) (key : String) : Bool :=
  match umap with
  | [] => false
  | (k, _) :: rest => k = key || userMapHas rest key

/-- Python `timestamp.replace('.', '')`: drop every dot (the pattern is a
single character, so the replacement is exactly a character filter). -/
def dropDots (s : String) : String :=
  String.mk (s.data.filter fun c => c ≠ '.')

/-- The body of `enrich_messages`'s loop for one message that passed both
filters: resolve the author, build the permalink
`https://slack.com/archives/{channel_id}/p{timestamp with the dot removed}`,
and assemble the record. -/
def enrichOne (umap : List (String × String)) (channel_id : String) (msg : RawMsg) :
    EnrichedMsg :=
  let user_id := msg.user.getD "unknown"
  let author := userMapGet umap user_id user_id
  let timestamp := msg.ts.getD "0"
  let permalink :=
    "https://slack.com/archives/" ++ channel_id ++ "/p" ++ dropDots timestamp
  { slack_message_id := channel_id ++ "_" ++ timestamp
    content := msg.text.getD ""
    author := author
    channel := channel_id
    timestamp := timestamp
    thread_ts := msg.thread_ts
    permalink := permalink
    metadata := { type := msg.type.getD "message", user_id := user_id } }

/-- `enrich_messages(messages, channel_id)`: iterate in order, `continue`
past any message with a truthy `subtype` or a falsy `text`, and append the
enriched record for the rest. -/
def enrich_messages (umap : List (String × String)) (messages : List RawMsg)
    (channel_id : String) : List EnrichedMsg :=
  match messages with
  | [] => []
  | msg :: rest =>
    if truthy msg.subtype then enrich_messages umap rest channel_id
    else if !truthy msg.text then enrich_messages umap rest channel_id
    else enrichOne umap channel_id msg :: enrich_messages umap rest channel_id

/-! ## Sync job (`src/kraken/scheduler.py`, `sync_job`) -/

/-- One value of the `slack_sync_state.json` dict:
`{'last_message_ts': ..., 'last_sync_at': ...}`. -/
structure WatermarkEntry where
  last_message_ts : String
  last_sync_at : String
  deriving Repr, DecidableEq

/-- The watermark file content: `channel_id → entry`, as an association
list (first binding wins, mirroring `dictFind`). -/
def wmFind (st : List (String × WatermarkEntry)) (key : String) : Option WatermarkEntry :=
  match st with
  | [] => none
  | (k, v) :: rest => if k = key then some v else wmFind rest key

/-- `sync_state[channel_id] = {...}` (dict assignment, overwrite or add). -/
def wmInsert (st : List (String × WatermarkEntry)) (key : String) (v : WatermarkEntry) :
    List (String × WatermarkEntry) :=
  match st with
  | [] => [(key, v)]
  | (k, w) :: rest => if k = key then (k, v) :: rest else (k, w) :: wmInsert rest key v

/-- `sync_job`'s pagination loop: fetch a page, extend the accumulator,
stop when the returned cursor is falsy (`if not cursor: break`) or when
the page ceiling is exhausted (`if page_count >= 10: break`; the loop is
entered with `pageBudget = 10`). A page fetch that raises (after
`fetch_messages`'s own retries) aborts the whole loop. -/
def fetchLoop (fetch : Option String → Except PyError (List RawMsg × Option String)) :
    (pageBudget : Nat) → (cursor : Option String) → (acc : List RawMsg) →
    Except PyError (List RawMsg)
  | 0, _, acc => .ok acc
  | budget + 1, cursor, acc =>
    match fetch cursor with
    | .error e => .error e
    | .ok (msgs, next) =>
      if truthy next = false then .ok (acc ++ msgs)
      else fetchLoop fetch budget next (acc ++ msgs)

/-- Python's `<` on strings: lexicographic comparison of the code-point
sequences. -/
def strLt (a b : List Char) : Bool :=
  match a, b with
  | [], [] => false
  | [], _ :: _ => true
  | _ :: _, [] => false
  | x :: xs, y :: ys => if x < y then true else if y < x then false else strLt xs ys

/-- Python `max(msg['timestamp'] for msg in enriched)` over a nonempty
generator: binary `max` folded left, keeping the current value on ties.
Slack timestamps are strings and the comparison is lexicographic. -/
def pyMaxTs (first : String) (rest : List String) : String :=
  rest.foldl (fun acc x => if strLt acc.data x.data then x else acc) first

/-- The external collaborators `sync_job` calls, each modelled by the
final outcome of the (already retry-wrapped) call: `fetch` is
`service.fetch_messages(channel_id, oldest=last_ts, cursor, 100)` as a
function of the cursor; `embed` is `service.batch_embed` as a function of
the enriched batch; `upsert` is `service.upsert_to_db` as a function of
the `(message, vector)` pairs it zips. -/
structure SyncWorld where
  fetch : Option String → Except PyError (List RawMsg × Option String)
  embed : List EnrichedMsg → Except PyError (List (List ℚ))
  upsert : List (EnrichedMsg × List ℚ) → Except PyError Nat

/-- What a `sync_job` run leaves behind: the durable watermark file and
the tracker state (the tracker's alert string is only logged). -/
structure SyncJobResult where
  syncState : List (String × WatermarkEntry)
  tracker : TrackerState
  succeeded : Bool
  deriving Repr, DecidableEq

/-- `sync_job(channel_id)`: load the watermark file, paginate through
`fetch_messages`, short-circuit to success on an empty fetch or an empty
enrichment, else embed the batch, upsert it, write the new watermark
(`max` origin timestamp of the just-processed messages plus the current
wall-clock time), and record the outcome on the tracker. Any exception in
any stage lands in the `except` branch: the watermark file is untouched
and a failure is recorded. -/
def sync_job (world : SyncWorld) (umap : List (String × String)) (channel_id : String)
    (nowIso : String) (nowEpoch : ℚ)
    (syncState : List (String × WatermarkEntry)) (tracker : TrackerState) :
    SyncJobResult :=
  match fetchLoop world.fetch 10 none [] with
  | .error _ =>
    { syncState := syncState, tracker := record_failure tracker nowEpoch nowIso
      succeeded := false }
  | .ok all_messages =>
    if all_messages.isEmpty then
      { syncState := syncState, tracker := record_success tracker nowIso
        succeeded := true }
    else
      let enriched := enrich_messages umap all_messages channel_id
      match enriched with
      | [] =>
        { syncState := syncState, tracker := record_success tracker nowIso
          succeeded := true }
      | first :: rest =>
        match world.embed (first :: rest) with
        | .error _ =>
          { syncState := syncState, tracker := record_failure tracker nowEpoch nowIso
            succeeded := false }
        | .ok embeddings =>
          match world.upsert ((first :: rest).zip embeddings) with
          | .error _ =>
            { syncState := syncState, tracker := record_failure tracker nowEpoch nowIso
              succeeded := false }
          | .ok _count =>
            let newest_ts := pyMaxTs first.timestamp (rest.map (·.timestamp))
            let entry : WatermarkEntry :=
              { last_message_ts := newest_ts, last_sync_at := nowIso }
            { syncState := wmInsert syncState channel_id entry
              tracker := record_success tracker nowIso
              succeeded := true }

/-! ## Scheduler registration (`src/kraken/scheduler.py`, `add_hourly_sync`) -/

/-- The `CronTrigger` the source builds: `minute='*/{m}'` for sub-hour
intervals, `hour='*/{h}', minute=0` at or above one hour. -/
inductive Trigger where
  | cronMinute (m : Int)
  | cronHour (h : Int)
  deriving Repr, DecidableEq

/-- Whether a cron trigger fires at a given wall-clock `(hour, minute)`:
`minute='*/m'` matches the minutes divisible by `m`; `hour='*/h', minute=0`
matches the top of the hours divisible by `h`. -/
def Trigger.fires : Trigger → (hour : Nat) → (minute : Nat) → Bool
  | .cronMinute m, _, minute => (minute : Int) % m = 0
  | .cronHour h, hour, minute => (hour : Int) % h = 0 && minute = 0

/-- A registered APScheduler job: `id='sync_{channel_id}'` with
`replace_existing=True`, so the id is the replacement key. -/
structure ScheduledJob where
  id : String
  trigger : Trigger
  name : String
  channel : String
  deriving Repr, DecidableEq

/-- `SyncScheduler.add_hourly_sync(channel_id, interval_minutes)`:
reject intervals outside 1–1440, register a `*/N`-minutes cron job below
60, and a `*/(N // 60)`-hours-on-the-hour cron job at or above 60.
Intervals are Python ints, modelled as `ℤ`; `//` on the nonnegative
operands here agrees with `Int` division. -/
def add_hourly_sync (channel_id : String) (interval_minutes : Int) :
    Except String ScheduledJob :=
  if interval_minutes < 1 ∨ interval_minutes > 1440 then
    .error ("Interval must be 1-1440 minutes, got " ++ toString interval_minutes)
  else if interval_minutes < 60 then
    .ok { id := "sync_" ++ channel_id
          trigger := .cronMinute interval_minutes
          name := "Sync " ++ channel_id ++ " every " ++ toString interval_minutes ++ "m"
          channel := channel_id }
  else
    let interval_hours := interval_minutes / 60
    .ok { id := "sync_" ++ channel_id
          trigger := .cronHour interval_hours
          name := "Sync " ++ channel_id ++ " every " ++ toString interval_hours ++ "h"
          channel := channel_id }

/-! ## MCP search tool (`src/kraken/mcp_server.py`, `handle_search_messages`) -/

/-- One row of a vector-store search result as the handler reads it. -/
structure SearchRow where
  content : String
  author : String
  channel : String
  similarity : ℚ
  deriving Repr, DecidableEq

/-- The explanatory error reply built in the handler's `except` branch
(`str(e)` is the error's message). -/
def searchFailedMsg (e : PyError) : String :=
  "Search failed: " ++ e.msg ++ "\n\nPlease try again or contact support if the issue persists."

/-- The reply for an empty result list. -/
def noResultsMsg (query : String) : String :=
  "No messages found matching '" ++ query ++
    "'. Try a different search term or check if data has been synced."

/-- Python `f"{similarity * 100:.0f}"`; the half-way rounding mode of the
float formatter is idealised as `round`. -/
def fmtPct (sim : ℚ) : String :=
  toString (round (sim * 100) : ℤ)

/-- The per-result lines of the success reply,
`for i, result in enumerate(results, 1)`. -/
def resultLines : Nat → List SearchRow → List String
  | _, [] => []
  | i, r :: rs =>
    ("**" ++ toString i ++ ". " ++ r.author ++ "** in #" ++ r.channel ++
      " (relevance: " ++ fmtPct r.similarity ++ "%)")
    :: (r.content.take 200 ++ (if r.content.length > 200 then "..." else ""))
    :: ""
    :: resultLines (i + 1) rs

/-- The success reply: header, blank line, then the per-result lines,
joined by newlines. -/
def formatResults (query : String) (results : List SearchRow) : String :=
  String.intercalate "\n"
    (("Found " ++ toString results.length ++ " relevant messages for '" ++ query ++ "':")
      :: "" :: resultLines 1 results)

/-- `handle_search_messages(arguments)`: the whole embedding-and-search
body sits in one `try`; the `except` branch renders the error as text.
`genEmbedding` is the outcome of `generate_embedding(query)`;
`storeSearch` is the outcome of `vector_store.search(...)` as a function
of the embedding (the `limit` and `min_similarity` arguments are passed
through to the store and do not influence the handler's own control
flow). Each reply is the list of `TextContent` items returned, each
modelled by its text. -/
def handle_search_messages (query : String)
    (genEmbedding : Except PyError (List ℚ))
    (storeSearch : List ℚ → Except PyError (List SearchRow)) : List String :=
  match genEmbedding with
  | .error e => [searchFailedMsg e]
  | .ok emb =>
    match storeSearch emb with
    | .error e => [searchFailedMsg e]
    | .ok results =>
      if results.isEmpty then [noResultsMsg query]
      else [formatResults query results]

/-! ## Client-side fallback search (`scripts/test_vector_search.py`,
`search_messages`) -/

/-- The `"embedding"` column of one stored row, as the fallback search
reads it: `absent` covers a missing key, `None`, and the other falsy
values (`""`, `[]`) rejected by `if not embedding_raw`; `unparseable`
covers a string `json.loads` rejects and any non-string non-list type;
`vec v` is a parsed or directly stored list (coordinates as exact `ℚ`,
idealising the IEEE doubles). -/
inductive StoredEmbedding where
  | absent
  | unparseable
  | vec (v : List ℚ)
  deriving Repr, DecidableEq

/-- One stored row of the table the fallback search scans. -/
structure StoredRow where
  id : Nat
  content : String
  author : String
  channel : String
  embedding : StoredEmbedding
  deriving Repr, DecidableEq

/-- `np.dot` on two equal-length vectors. -/
def dotQ (a b : List ℚ) : ℚ :=
  (a.zipWith (· * ·) b).sum

/-- The squared Euclidean norm, `np.linalg.norm(v) ** 2`. -/
def normSq (a : List ℚ) : ℚ :=
  dotQ a a

/-- One scored result dict appended by the fallback search. The source
stores the float `similarity = dot / (‖q‖ * ‖v‖)`; the model carries it
exactly as the pair `(simNum, simDen) = (dot, normSq q * normSq v)`, the
similarity being `simNum / √simDen`. `simDen = 0` encodes the source's
`0.0 / 0.0 = NaN` (NumPy emits a warning, not an exception, so the row is
appended, not skipped). -/
structure Scored where
  id : Nat
  content : String
  author : String
  channel : String
  simNum : ℚ
  simDen : ℚ
  deriving Repr, DecidableEq

/-- The real similarity value a `Scored` entry carries (a mathematical
reading of the stored float, not part of the executable pipeline). -/
noncomputable def Scored.sim (r : Scored) : ℝ :=
  (r.simNum : ℝ) / Real.sqrt (r.simDen : ℝ)

/-- Cosine similarity as the source computes it:
`np.dot(q, v) / (np.linalg.norm(q) * np.linalg.norm(v))`. -/
noncomputable def cosineSim (q v : List ℚ) : ℝ :=
  (dotQ q v : ℝ) / (Real.sqrt (normSq q : ℝ) * Real.sqrt (normSq v : ℝ))

/-- The loop body of the fallback search for one row: skip (`continue`)
on an absent or unparseable embedding and on a dimension mismatch,
otherwise score the row. -/
def rowScore (q : List ℚ) (r : StoredRow) : Option Scored :=
  match r.embedding with
  | .absent => none
  | .unparseable => none
  | .vec v =>
    if v.length ≠ q.length then none
    else some { id := r.id, content := r.content, author := r.author
                channel := r.channel
                simNum := dotQ q v, simDen := normSq q * normSq v }

/-- Decides `d1 / √p1 ≤ d2 / √p2` for `p1, p2 > 0` in exact rational
arithmetic (sign split, then comparison of squares). -/
def simLE (d1 p1 d2 p2 : ℚ) : Bool :=
  if d1 < 0 then
    (if 0 ≤ d2 then true else decide (d2 ^ 2 * p1 ≤ d1 ^ 2 * p2))
  else
    (if d2 < 0 then false else decide (d1 ^ 2 * p2 ≤ d2 ^ 2 * p1))

/-- The comparator of `results.sort(key=lambda x: x["similarity"],
reverse=True)`: `a` may stay before `b` when `a`'s similarity is at least
`b`'s. A comparison involving the NaN score (`simDen = 0`) never reorders
(IEEE comparisons with NaN are all false, so Python's stable sort leaves
such pairs in their incoming order). -/
def scoredDescLE (a b : Scored) : Bool :=
  if a.simDen = 0 ∨ b.simDen = 0 then true
  else simLE b.simNum b.simDen a.simNum a.simDen

/-- Stable insertion: place `x` before the first element it may precede. -/
def insertBy {α : Type} (le : α → α → Bool) (x : α) : List α → List α
  | [] => [x]
  | y :: ys => if le x y then x :: y :: ys else y :: insertBy le x ys

/-- A stable sort (Python's `list.sort` is stable; any two stable sorts
of the same total preorder agree). -/
def sortBy {α : Type} (le : α → α → Bool) : List α → List α
  | [] => []
  | x :: xs => insertBy le x (sortBy le xs)

/-- `search_messages(query_embedding, limit)`: score every row the skip
rules let through, sort by descending similarity, truncate to `limit`.
There is no `minSimilarity` parameter anywhere in this function. -/
def search_messages (q : List ℚ) (lim : Nat) (rows : List StoredRow) : List Scored :=
  (sortBy scoredDescLE (rows.filterMap (rowScore q))).take lim

/-! ## Helper lemmas -/

theorem dictFind_dictInsert_self (c : List (String × CacheEntry)) (k : String) (v : CacheEntry) :
    dictFind (dictInsert c k v) k = some v := by
  induction c with
  | nil => simp [dictInsert, dictFind]
  | cons hd tl ih =>
    obtain ⟨k', w⟩ := hd
    by_cases h : k' = k
    · simp [dictInsert, dictFind, h]
    · simp [dictInsert, dictFind, h, ih]

theorem dictFind_dictInsert_ne (c : List (String × CacheEntry)) (k k' : String)
    (v : CacheEntry) (hne : k' ≠ k) :
    dictFind (dictInsert c k v) k' = dictFind c k' := by
  induction c with
  | nil => simp [dictInsert, dictFind, hne.symm]
  | cons hd tl ih =>
    obtain ⟨k₀, w⟩ := hd
    by_cases h : k₀ = k
    · subst h
      simp [dictInsert, dictFind, hne.symm]
    · by_cases h' : k₀ = k'
      · simp [dictInsert, dictFind, h, h', hne]
      · simp [dictInsert, dictFind, h, h', ih]

theorem cacheKey_model_inj {t m m' : String} (h : cacheKey t m = cacheKey t m') : m = m' := by
  have hd := congrArg String.data h
  simp only [cacheKey, String.data_append, List.append_assoc] at hd
  exact String.ext (List.append_cancel_right hd)

theorem critical_ne_warning (a b : Nat) : criticalMsg a ≠ warningMsg b := by
  intro h
  have hd := congrArg (fun s => s.data.head?) h
  simp only [criticalMsg, warningMsg, String.data_append, List.head?_append,
    List.head?_cons, Option.or_some] at hd
  exact absurd hd (by decide)

/-! ## Claim theorems -/

/-- Claim C4: `EmbeddingCache.set(t, m, v)` followed by `get(t, m)` returns
exactly `v`, and for any model `m' ≠ m` with no prior entry under
`(t, m')`, `get(t, m')` still returns absent — identical text under
different models never collides to one cache entry. -/
theorem C4_cache_set_then_get (c : EmbeddingCache) (t m : String) (v : List ℚ) (now : Nat) :
    (cache_get (cache_set c t m v now) t m).1 = some v
    ∧ (∀ m', m' ≠ m → (cache_get c t m').1 = none →
        (cache_get (cache_set c t m v now) t m').1 = none) := by
  constructor
  · simp [cache_get, cache_set, dictFind_dictInsert_self]
  · intro m' hne hmiss
    have hkey : cacheKey t m' ≠ cacheKey t m := fun h => hne (cacheKey_model_inj h)
    have hfind : dictFind c.cache (cacheKey t m') = none := by
      rcases hd : dictFind c.cache (cacheKey t m') with _ | e
      · rfl
      · simp [cache_get, hd] at hmiss
    simp [cache_get, cache_set, dictFind_dictInsert_ne _ _ _ _ hkey, hfind]

/-- Witness for C4 at a concrete cache, text and two models. -/
theorem C4_witness :
    (("other-model" : String) ≠ "text-embedding-3-small")
    ∧ (cache_get ⟨[], 0, 0⟩ "hello world" "other-model").1 = none
    ∧ (cache_get (cache_set ⟨[], 0, 0⟩ "hello world" "text-embedding-3-small" [1, 0] 7)
        "hello world" "text-embedding-3-small").1 = some [1, 0]
    ∧ (cache_get (cache_set ⟨[], 0, 0⟩ "hello world" "text-embedding-3-small" [1, 0] 7)
        "hello world" "other-model").1 = none := by
  refine ⟨by decide, by decide, ?_, ?_⟩
  · exact (C4_cache_set_then_get ⟨[], 0, 0⟩ "hello world" "text-embedding-3-small" [1, 0] 7).1
  · exact (C4_cache_set_then_get ⟨[], 0, 0⟩ "hello world" "text-embedding-3-small" [1, 0] 7).2
      "other-model" (by decide) (by decide)

/-- Claim C6: three consecutive `record_failure` calls with no intervening
success yield the critical alert; after a success followed by exactly two
failures the alert is never the critical one; and whenever both the
consecutive (≥ 3) and trailing-24h (≥ 10) conditions hold, `should_alert`
returns the consecutive-failure critical alert, not the warning. -/
theorem C6_alert_thresholds :
    (∀ (s : TrackerState) (n1 n2 n3 : ℚ) (i1 i2 i3 : String),
        should_alert (record_failure (record_failure (record_failure s n1 i1) n2 i2) n3 i3)
          = some (criticalMsg (s.consecutive_failures + 3)))
    ∧ (∀ (s : TrackerState) (iS : String) (n1 n2 : ℚ) (i1 i2 : String) (k : Nat),
        should_alert (record_failure (record_failure (record_success s iS) n1 i1) n2 i2)
          ≠ some (criticalMsg k))
    ∧ (∀ s : TrackerState, 3 ≤ s.consecutive_failures → 10 ≤ s.failures_24h.length →
        should_alert s = some (criticalMsg s.consecutive_failures)) := by
  refine ⟨?_, ?_, ?_⟩
  · intro s n1 n2 n3 i1 i2 i3
    have h3 : s.consecutive_failures + 1 + 1 + 1 = s.consecutive_failures + 3 := by omega
    have hge : s.consecutive_failures + 3 ≥ 3 := by omega
    simp [record_failure, should_alert, h3, hge]
  · intro s iS n1 n2 i1 i2 k h
    simp only [record_success, record_failure, should_alert] at h
    norm_num at h
    exact critical_ne_warning k _ h.2.symm
  · intro s h3 h10
    simp [should_alert, h3]

/-- Witness for C6: a concrete state where both alert conditions hold
simultaneously and the critical alert is returned. -/
theorem C6_witness :
    (3 ≤ (⟨none, none, 4, [1, 2, 3, 4, 5, 6, 7, 8, 9, 10, 11]⟩ : TrackerState).consecutive_failures)
    ∧ (10 ≤ (⟨none, none, 4, [1, 2, 3, 4, 5, 6, 7, 8, 9, 10, 11]⟩ : TrackerState).failures_24h.length)
    ∧ should_alert ⟨none, none, 4, [1, 2, 3, 4, 5, 6, 7, 8, 9, 10, 11]⟩ = some (criticalMsg 4) :=
  ⟨by decide, by decide,
    C6_alert_thresholds.2.2 ⟨none, none, 4, [1, 2, 3, 4, 5, 6, 7, 8, 9, 10, 11]⟩
      (by decide) (by decide)⟩

/-- Claim C9 counterexample: at a write occurring at epoch 200000 the
window entry 0 is older than 24 hours (0 ≤ 200000 − 86400), yet
`record_success` persists the `failures_24h` window unchanged — the
success write does not prune. -/
theorem C9_counterexample :
    ((0 : ℚ) ≤ 200000 - 86400)
    ∧ (record_success ⟨none, none, 5, [0]⟩ "1970-01-03T07:33:20").failures_24h = [0] := by
  exact ⟨by norm_num, rfl⟩

/-- Claim C9 amended: `record_failure` prunes every window entry older
than 24 hours before persisting (each persisted entry is younger than the
cutoff or is the newly appended timestamp, and every stale entry is
dropped), but `record_success` persists the window untouched — only the
failure write prunes. -/
theorem C9_amended_pruning (s : TrackerState) (now : ℚ) (iso iso2 : String) :
    (∀ ts ∈ (record_failure s now iso).failures_24h, now - 86400 < ts ∨ ts = now)
    ∧ (∀ ts ∈ s.failures_24h, ts ≤ now - 86400 →
        ts ∉ (record_failure s now iso).failures_24h)
    ∧ (record_success s iso2).failures_24h = s.failures_24h := by
  refine ⟨?_, ?_, rfl⟩
  · intro ts hts
    simp only [record_failure, List.mem_append, List.mem_filter, List.mem_singleton,
      decide_eq_true_eq] at hts
    rcases hts with ⟨_, hlt⟩ | heq
    · exact Or.inl hlt
    · exact Or.inr heq
  · intro ts hts hle hmem
    simp only [record_failure, List.mem_append, List.mem_filter, List.mem_singleton,
      decide_eq_true_eq] at hmem
    rcases hmem with ⟨_, hlt⟩ | heq
    · exact absurd hle (not_le.mpr hlt)
    · subst heq
      have : ¬ (ts ≤ ts - 86400) := by linarith
      exact this hle

/-- Witness for C9's amended theorem: the stale entry 0 is dropped by a
failure write at epoch 200000. -/
theorem C9_witness :
    ((0 : ℚ) ∈ (⟨none, none, 0, [0]⟩ : TrackerState).failures_24h)
    ∧ ((0 : ℚ) ≤ 200000 - 86400)
    ∧ (0 : ℚ) ∉ (record_failure ⟨none, none, 0, [0]⟩ 200000 "iso").failures_24h :=
  ⟨by simp, by norm_num,
    (C9_amended_pruning ⟨none, none, 0, [0]⟩ 200000 "iso" "x").2.1 0 (by simp) (by norm_num)⟩

/-- Claim C2: with `maxAttempts = 3`, an operation failing transiently on
the first two calls and succeeding on the third returns the success
result (after exactly 3 calls); a permanent-classified first failure is
re-raised after a single call with no further attempts; and three
transient failures raise the last (third) error. -/
theorem C2_with_retry_three_attempts {α : Type} (op : Nat → Except PyError α) :
    (∀ (e0 e1 : PyError) (v : α),
        op 0 = .error e0 → is_transient_error e0 = true →
        op 1 = .error e1 → is_transient_error e1 = true →
        op 2 = .ok v →
        with_retry op 3 = .ok v 3)
    ∧ (∀ e : PyError, op 0 = .error e → is_transient_error e = false →
        with_retry op 3 = .err e 1)
    ∧ (∀ e0 e1 e2 : PyError,
        op 0 = .error e0 → is_transient_error e0 = true →
        op 1 = .error e1 → is_transient_error e1 = true →
        op 2 = .error e2 → is_transient_error e2 = true →
        with_retry op 3 = .err e2 3) := by
  refine ⟨?_, ?_, ?_⟩
  · intro e0 e1 v h0 ht0 h1 ht1 h2
    simp [with_retry, retryLoop, h0, ht0, h1, ht1, h2]
  · intro e h0 ht0
    simp [with_retry, retryLoop, h0, ht0]
  · intro e0 e1 e2 h0 ht0 h1 ht1 h2 ht2
    simp [with_retry, retryLoop, h0, ht0, h1, ht1, h2, ht2]

/-- Witness for C2: an operation raising a transient connection-timeout
error twice then returning 42 on the third call. -/
theorem C2_witness :
    ((fun n => if n < 2 then Except.error ⟨"connection timed out", "SlackApiError"⟩
               else Except.ok 42) 0 = Except.error (⟨"connection timed out", "SlackApiError"⟩ : PyError))
    ∧ is_transient_error ⟨"connection timed out", "SlackApiError"⟩ = true
    ∧ with_retry (fun n => if n < 2 then Except.error ⟨"connection timed out", "SlackApiError"⟩
               else Except.ok (42 : Nat)) 3 = .ok 42 3 := by
  refine ⟨rfl, by decide, ?_⟩
  exact (C2_with_retry_three_attempts
      (fun n => if n < 2 then Except.error ⟨"connection timed out", "SlackApiError"⟩
                else Except.ok (42 : Nat))).1
    ⟨"connection timed out", "SlackApiError"⟩ ⟨"connection timed out", "SlackApiError"⟩ 42
    rfl (by decide) rfl (by decide) rfl

/-- Claim C7: `add_hourly_sync` rejects every interval outside 1–1440
minutes; for 1 ≤ N < 60 the registered job's cron trigger fires exactly at
the wall-clock minutes divisible by N; for 60 ≤ N ≤ 1440 it fires exactly
on the hour (minute 0) at the hours divisible by N / 60 (integer
division, as the source computes `interval_minutes // 60`). -/
theorem C7_add_hourly_sync_trigger (ch : String) (n : Int) :
    (n < 1 ∨ n > 1440 → ∃ msg, add_hourly_sync ch n = .error msg)
    ∧ (1 ≤ n → n < 60 → ∃ job, add_hourly_sync ch n = .ok job
        ∧ job.id = "sync_" ++ ch
        ∧ job.trigger = .cronMinute n
        ∧ ∀ hr minute : Nat, job.trigger.fires hr minute = true ↔ (minute : Int) % n = 0)
    ∧ (60 ≤ n → n ≤ 1440 → ∃ job, add_hourly_sync ch n = .ok job
        ∧ job.id = "sync_" ++ ch
        ∧ job.trigger = .cronHour (n / 60)
        ∧ ∀ hr minute : Nat, job.trigger.fires hr minute = true
            ↔ ((hr : Int) % (n / 60) = 0 ∧ minute = 0)) := by
  refine ⟨?_, ?_, ?_⟩
  · intro h
    refine ⟨"Interval must be 1-1440 minutes, got " ++ toString n, ?_⟩
    simp [add_hourly_sync, h]
  · intro h1 h60
    have hcond : ¬ (n < 1 ∨ n > 1440) := by omega
    refine ⟨{ id := "sync_" ++ ch, trigger := .cronMinute n
              name := "Sync " ++ ch ++ " every " ++ toString n ++ "m", channel := ch },
      ?_, rfl, rfl, ?_⟩
    · simp [add_hourly_sync, hcond, h60]
    · intro hr minute
      simp [Trigger.fires]
  · intro h60 h1440
    have hcond : ¬ (n < 1 ∨ n > 1440) := by omega
    have hlt : ¬ n < 60 := by omega
    refine ⟨{ id := "sync_" ++ ch, trigger := .cronHour (n / 60)
              name := "Sync " ++ ch ++ " every " ++ toString (n / 60) ++ "h", channel := ch },
      ?_, rfl, rfl, ?_⟩
    · simp [add_hourly_sync, hcond, hlt]
    · intro hr minute
      simp [Trigger.fires, and_comm]

/-- Witness for C7 at interval 90: the job fires every `90 / 60 = 1` hour
on the hour. -/
theorem C7_witness :
    ((60 : Int) ≤ 90) ∧ ((90 : Int) ≤ 1440)
    ∧ ∃ job, add_hourly_sync "C0A474TT6CU" 90 = .ok job
        ∧ job.id = "sync_" ++ "C0A474TT6CU"
        ∧ job.trigger = .cronHour ((90 : Int) / 60)
        ∧ ∀ hr minute : Nat, job.trigger.fires hr minute = true
            ↔ ((hr : Int) % ((90 : Int) / 60) = 0 ∧ minute = 0) :=
  ⟨by decide, by decide,
    (C7_add_hourly_sync_trigger "C0A474TT6CU" 90).2.2 (by decide) (by decide)⟩

/-- Claim C8: `handle_search_messages` always returns exactly one text
reply, and any error raised while generating the query embedding or while
querying the vector store is caught and rendered as the explanatory
"Search failed" text. -/
theorem C8_search_tool_total (query : String)
    (genEmbedding : Except PyError (List ℚ))
    (storeSearch : List ℚ → Except PyError (List SearchRow)) :
    (∃ t, handle_search_messages query genEmbedding storeSearch = [t])
    ∧ (∀ e, genEmbedding = .error e →
        handle_search_messages query genEmbedding storeSearch = [searchFailedMsg e])
    ∧ (∀ emb e, genEmbedding = .ok emb → storeSearch emb = .error e →
        handle_search_messages query genEmbedding storeSearch = [searchFailedMsg e]) := by
  refine ⟨?_, ?_, ?_⟩
  · rcases hg : genEmbedding with e | emb
    · exact ⟨searchFailedMsg e, by simp [handle_search_messages, hg]⟩
    · rcases hs : storeSearch emb with e | results
      · exact ⟨searchFailedMsg e, by simp [handle_search_messages, hg, hs]⟩
      · rcases hr : results.isEmpty with _ | _
        · exact ⟨formatResults query results, by simp [handle_search_messages, hg, hs, hr]⟩
        · exact ⟨noResultsMsg query, by simp [handle_search_messages, hg, hs, hr]⟩
  · intro e hg
    subst hg
    simp [handle_search_messages]
  · intro emb e hg hs
    subst hg
    simp [handle_search_messages, hs]

/-- Witness for C8: a concrete store failure is rendered as the
explanatory text reply. -/
theorem C8_witness :
    ((Except.ok [(1 : ℚ)] : Except PyError (List ℚ)) = .ok [(1 : ℚ)])
    ∧ ((fun _ : List ℚ => (Except.error ⟨"Connection reset by peer", "APIError"⟩ :
          Except PyError (List SearchRow))) [(1 : ℚ)]
        = .error ⟨"Connection reset by peer", "APIError"⟩)
    ∧ handle_search_messages "authentication bug" (.ok [(1 : ℚ)])
        (fun _ => .error ⟨"Connection reset by peer", "APIError"⟩)
      = [searchFailedMsg ⟨"Connection reset by peer", "APIError"⟩] :=
  ⟨rfl, rfl,
    (C8_search_tool_total "authentication bug" (.ok [(1 : ℚ)])
        (fun _ => .error ⟨"Connection reset by peer", "APIError"⟩)).2.2
      [(1 : ℚ)] ⟨"Connection reset by peer", "APIError"⟩ rfl rfl⟩

theorem userMapGet_mem (umap : List (String × String)) (k d : String)
    (h : userMapHas umap k = true) : (k, userMapGet umap k d) ∈ umap := by
  induction umap with
  | nil => simp [userMapHas] at h
  | cons hd tl ih =>
    obtain ⟨k0, v0⟩ := hd
    by_cases hk : k0 = k
    · subst hk
      simp [userMapGet]
    · simp only [userMapHas, hk, Bool.or_eq_true, decide_eq_true_eq] at h
      have h' : userMapHas tl k = true := by
        rcases h with h | h
        · exact h.elim
        · exact h
      simp only [userMapGet, hk, if_false, List.mem_cons]
      exact Or.inr (ih h')

theorem userMapGet_not_mem (umap : List (String × String)) (k d : String)
    (h : userMapHas umap k = false) : userMapGet umap k d = d := by
  induction umap with
  | nil => rfl
  | cons hd tl ih =>
    obtain ⟨k0, v0⟩ := hd
    by_cases hk : k0 = k
    · simp [userMapHas, hk] at h
    · simp only [userMapHas, hk, Bool.or_eq_false_iff] at h
      simp only [userMapGet, hk, if_false]
      exact ih h.2

theorem enrich_messages_eq (umap : List (String × String)) (msgs : List RawMsg)
    (ch : String) :
    enrich_messages umap msgs ch
      = (msgs.filter fun m => !truthy m.subtype && truthy m.text).map (enrichOne umap ch) := by
  induction msgs with
  | nil => rfl
  | cons m rest ih =>
    by_cases hs : truthy m.subtype
    · simp [enrich_messages, hs, List.filter_cons, ih]
    · by_cases ht : truthy m.text
      · simp [enrich_messages, hs, ht, List.filter_cons, ih]
      · simp [enrich_messages, hs, ht, List.filter_cons, ih]

/-- Claim C5: `enrich_messages` returns, in input order, exactly the
messages with no truthy subtype marker and non-empty text, and each kept
message's author is the snapshot's display name when the raw user id is a
key of the snapshot, and the raw user id unchanged otherwise. -/
theorem C5_enrich_messages_contract (umap : List (String × String)) (msgs : List RawMsg)
    (ch : String) :
    enrich_messages umap msgs ch
      = (msgs.filter fun m => !truthy m.subtype && truthy m.text).map (enrichOne umap ch)
    ∧ (∀ m ∈ msgs, truthy m.subtype = false → truthy m.text = true →
        (userMapHas umap (m.user.getD "unknown") = true →
          (m.user.getD "unknown", (enrichOne umap ch m).author) ∈ umap)
        ∧ (userMapHas umap (m.user.getD "unknown") = false →
          (enrichOne umap ch m).author = m.user.getD "unknown")) := by
  refine ⟨enrich_messages_eq umap msgs ch, ?_⟩
  intro m _ _ _
  constructor
  · intro hh
    simpa [enrichOne] using
      userMapGet_mem umap (m.user.getD "unknown") (m.user.getD "unknown") hh
  · intro hh
    simp [enrichOne, userMapGet_not_mem umap _ _ hh]

/-- Witness for C5: a known user id resolves to the snapshot name. -/
theorem C5_witness :
    ((⟨none, some "hi", some "U1", none, none, none⟩ : RawMsg)
        ∈ [(⟨none, some "hi", some "U1", none, none, none⟩ : RawMsg)])
    ∧ truthy (none : Option String) = false
    ∧ truthy (some "hi") = true
    ∧ userMapHas [("U1", "Alice")] "U1" = true
    ∧ ("U1", (enrichOne [("U1", "Alice")] "C1"
        ⟨none, some "hi", some "U1", none, none, none⟩).author) ∈ [("U1", "Alice")] := by
  refine ⟨by decide, by decide, by decide, by decide, ?_⟩
  have h := ((C5_enrich_messages_contract [("U1", "Alice")]
      [⟨none, some "hi", some "U1", none, none, none⟩] "C1").2
      ⟨none, some "hi", some "U1", none, none, none⟩
      (by decide) (by decide) (by decide)).1 (by decide)
  simpa using h

/-- Claim C10: a raw message that passes both filters but has no `user`
field is enriched with metadata user id literally `"unknown"`, and its
author is resolved by looking the literal `"unknown"` up in the user
snapshot (falling back to `"unknown"` itself when absent there) — no
other field of the message contributes the identifier. -/
theorem C10_enrich_missing_user (umap : List (String × String)) (msgs : List RawMsg)
    (ch : String) (m : RawMsg) :
    m ∈ msgs → m.user = none → truthy m.subtype = false → truthy m.text = true →
    enrichOne umap ch m ∈ enrich_messages umap msgs ch
    ∧ (enrichOne umap ch m).metadata.user_id = "unknown"
    ∧ (enrichOne umap ch m).author = userMapGet umap "unknown" "unknown"
    ∧ (userMapHas umap "unknown" = false → (enrichOne umap ch m).author = "unknown")
    ∧ (userMapHas umap "unknown" = true →
        ("unknown", (enrichOne umap ch m).author) ∈ umap) := by
  intro hm hu hs ht
  refine ⟨?_, ?_, ?_, ?_, ?_⟩
  · rw [enrich_messages_eq]
    exact List.mem_map_of_mem _ (List.mem_filter.mpr ⟨hm, by simp [hs, ht]⟩)
  · simp [enrichOne, hu]
  · simp [enrichOne, hu]
  · intro hh
    simp [enrichOne, hu, userMapGet_not_mem umap _ _ hh]
  · intro hh
    simpa [enrichOne, hu] using userMapGet_mem umap "unknown" "unknown" hh

/-- Witness for C10: a user-less message in a snapshot that does not know
the id `"unknown"`. -/
theorem C10_witness :
    ((⟨none, some "hello", none, some "17.5", none, none⟩ : RawMsg)
        ∈ [(⟨none, some "hello", none, some "17.5", none, none⟩ : RawMsg)])
    ∧ (⟨none, some "hello", none, some "17.5", none, none⟩ : RawMsg).user = none
    ∧ (enrichOne [("U1", "Alice")] "C2"
        ⟨none, some "hello", none, some "17.5", none, none⟩).metadata.user_id = "unknown"
    ∧ (enrichOne [("U1", "Alice")] "C2"
        ⟨none, some "hello", none, some "17.5", none, none⟩).author = "unknown" := by
  refine ⟨by decide, rfl, ?_, ?_⟩
  · exact (C10_enrich_missing_user [("U1", "Alice")]
      [⟨none, some "hello", none, some "17.5", none, none⟩] "C2"
      ⟨none, some "hello", none, some "17.5", none, none⟩
      (by decide) rfl (by decide) (by decide)).2.1
  · exact (C10_enrich_missing_user [("U1", "Alice")]
      [⟨none, some "hello", none, some "17.5", none, none⟩] "C2"
      ⟨none, some "hello", none, some "17.5", none, none⟩
      (by decide) rfl (by decide) (by decide)).2.2.2.1 (by decide)

theorem strLt_irrefl (a : List Char) : strLt a a = false := by
  induction a with
  | nil => rfl
  | cons x xs ih => simp [strLt, lt_irrefl, ih]

theorem strLt_trans {a b c : List Char} :
    strLt a b = true → strLt b c = true → strLt a c = true := by
  induction a generalizing b c with
  | nil =>
    intro h1 h2
    cases b with
    | nil => simp [strLt] at h1
    | cons y ys =>
      cases c with
      | nil => simp [strLt] at h2
      | cons z zs => simp [strLt]
  | cons x xs ih =>
    intro h1 h2
    cases b with
    | nil => simp [strLt] at h1
    | cons y ys =>
      cases c with
      | nil => simp [strLt] at h2
      | cons z zs =>
        simp only [strLt] at h1 h2 ⊢
        by_cases hxy : x < y
        · by_cases hyz : y < z
          · simp [lt_trans hxy hyz]
          · by_cases hzy : z < y
            · simp [hyz, hzy] at h2
            · have hyz' : y = z := le_antisymm (not_lt.mp hzy) (not_lt.mp hyz)
              subst hyz'
              simp [hxy]
        · by_cases hyx : y < x
          · simp [hxy, hyx] at h1
          · have hxy' : x = y := le_antisymm (not_lt.mp hyx) (not_lt.mp hxy)
            subst hxy'
            simp only [hxy, if_false, hyx] at h1
            by_cases hxz : x < z
            · simp [hxz]
            · by_cases hzx : z < x
              · simp [hxz, hzx] at h2
              · simp only [hxz, hzx, if_false] at h2 ⊢
                exact ih h1 h2

theorem strLt_false_trans {a b c : List Char} :
    strLt a b = false → strLt b c = false → strLt a c = false := by
  induction a generalizing b c with
  | nil =>
    intro h1 h2
    cases b with
    | nil =>
      cases c with
      | nil => rfl
      | cons z zs => simp [strLt] at h2
    | cons y ys => simp [strLt] at h1
  | cons x xs ih =>
    intro h1 h2
    cases c with
    | nil => cases xs <;> rfl
    | cons z zs =>
      cases b with
      | nil => simp [strLt] at h2
      | cons y ys =>
        simp only [strLt] at h1 h2 ⊢
        by_cases hxy : x < y
        · simp [hxy] at h1
        · by_cases hyz : y < z
          · simp [hyz] at h2
          · have hzx : z ≤ x := le_trans (not_lt.mp hyz) (not_lt.mp hxy)
            have hxz : ¬ x < z := not_lt.mpr hzx
            by_cases hzx' : z < x
            · simp [hxz, hzx']
            · have hxz' : x = z := le_antisymm (not_lt.mp hzx') hzx
              subst hxz'
              have hxy' : x = y := le_antisymm (not_lt.mp hyz) (not_lt.mp hxy)
              subst hxy'
              simp only [lt_irrefl, if_false] at h1 h2 ⊢
              exact ih h1 h2

theorem pyMaxTs_mem (first : String) (rest : List String) :
    pyMaxTs first rest = first ∨ pyMaxTs first rest ∈ rest := by
  induction rest generalizing first with
  | nil => exact Or.inl rfl
  | cons y ys ih =>
    simp only [pyMaxTs, List.foldl_cons] at *
    by_cases h : strLt first.data y.data = true
    · simp only [h, if_true]
      rcases ih y with h' | h'
      · exact Or.inr (by simp [h'])
      · exact Or.inr (List.mem_cons_of_mem _ h')
    · simp only [h, if_false]
      rcases ih first with h' | h'
      · exact Or.inl h'
      · exact Or.inr (List.mem_cons_of_mem _ h')

theorem pyMaxTs_ub (first : String) (rest : List String) :
    ∀ x ∈ first :: rest, strLt (pyMaxTs first rest).data x.data = false := by
  induction rest generalizing first with
  | nil =>
    intro x hx
    simp only [List.mem_singleton] at hx
    subst hx
    exact strLt_irrefl _
  | cons y ys ih =>
    intro x hx
    simp only [pyMaxTs, List.foldl_cons]
    by_cases h : strLt first.data y.data = true
    · simp only [h, if_true]
      rcases List.mem_cons.mp hx with h' | hx'
      · subst h'
        have hMy : strLt (pyMaxTs y ys).data y.data = false :=
          ih y y (List.mem_cons_self _ _)
        by_contra hMx
        have hMx' : strLt (pyMaxTs y ys).data x.data = true := by
          simpa using hMx
        have hcontr := strLt_trans hMx' h
        simp [hMy] at hcontr
      · exact ih y x hx'
    · simp only [h, if_false]
      have hfy : strLt first.data y.data = false := by
        simpa using h
      rcases List.mem_cons.mp hx with h' | hx'
      · subst h'
        exact ih x x (List.mem_cons_self _ _)
      · rcases List.mem_cons.mp hx' with h'' | hx''
        · subst h''
          have hMf : strLt (pyMaxTs first ys).data first.data = false :=
            ih first first (List.mem_cons_self _ _)
          exact strLt_false_trans hMf hfy
        · exact ih first x (List.mem_cons_of_mem _ hx'')

theorem wmFind_wmInsert_self (st : List (String × WatermarkEntry)) (k : String)
    (v : WatermarkEntry) : wmFind (wmInsert st k v) k = some v := by
  induction st with
  | nil => simp [wmInsert, wmFind]
  | cons hd tl ih =>
    obtain ⟨k', w⟩ := hd
    by_cases h : k' = k
    · simp [wmInsert, wmFind, h]
    · simp [wmInsert, wmFind, h, ih]

theorem sync_job_cases (world : SyncWorld) (umap : List (String × String))
    (ch nowIso : String) (nowEpoch : ℚ) (st : List (String × WatermarkEntry))
    (tr : TrackerState) :
    (∃ e, fetchLoop world.fetch 10 none [] = .error e
        ∧ sync_job world umap ch nowIso nowEpoch st tr
            = ⟨st, record_failure tr nowEpoch nowIso, false⟩)
    ∨ (∃ msgs, fetchLoop world.fetch 10 none [] = .ok msgs
        ∧ enrich_messages umap msgs ch = []
        ∧ sync_job world umap ch nowIso nowEpoch st tr
            = ⟨st, record_success tr nowIso, true⟩)
    ∨ (∃ msgs first rest e, fetchLoop world.fetch 10 none [] = .ok msgs
        ∧ enrich_messages umap msgs ch = first :: rest
        ∧ world.embed (first :: rest) = .error e
        ∧ sync_job world umap ch nowIso nowEpoch st tr
            = ⟨st, record_failure tr nowEpoch nowIso, false⟩)
    ∨ (∃ msgs first rest embs e, fetchLoop world.fetch 10 none [] = .ok msgs
        ∧ enrich_messages umap msgs ch = first :: rest
        ∧ world.embed (first :: rest) = .ok embs
        ∧ world.upsert ((first :: rest).zip embs) = .error e
        ∧ sync_job world umap ch nowIso nowEpoch st tr
            = ⟨st, record_failure tr nowEpoch nowIso, false⟩)
    ∨ (∃ msgs first rest embs cnt, fetchLoop world.fetch 10 none [] = .ok msgs
        ∧ enrich_messages umap msgs ch = first :: rest
        ∧ world.embed (first :: rest) = .ok embs
        ∧ world.upsert ((first :: rest).zip embs) = .ok cnt
        ∧ sync_job world umap ch nowIso nowEpoch st tr
            = ⟨wmInsert st ch
                ⟨pyMaxTs first.timestamp (rest.map (·.timestamp)), nowIso⟩,
              record_success tr nowIso, true⟩) := by
  rcases hf : fetchLoop world.fetch 10 none [] with e | msgs
  · exact Or.inl ⟨e, rfl, by simp [sync_job, hf]⟩
  · rcases hm : msgs.isEmpty with _ | _
    · rcases he : enrich_messages umap msgs ch with _ | ⟨first, rest⟩
      · exact Or.inr (Or.inl ⟨msgs, rfl, he, by simp [sync_job, hf, hm, he]⟩)
      · rcases hemb : world.embed (first :: rest) with e | embs
        · exact Or.inr (Or.inr (Or.inl
            ⟨msgs, first, rest, e, rfl, he, hemb, by simp [sync_job, hf, hm, he, hemb]⟩))
        · rcases hup : world.upsert ((first :: rest).zip embs) with e | cnt
          · exact Or.inr (Or.inr (Or.inr (Or.inl
              ⟨msgs, first, rest, embs, e, rfl, he, hemb, hup,
                by simp [sync_job, hf, hm, he, hemb, hup]⟩)))
          · exact Or.inr (Or.inr (Or.inr (Or.inr
              ⟨msgs, first, rest, embs, cnt, rfl, he, hemb, hup,
                by simp [sync_job, hf, hm, he, hemb, hup]⟩)))
    · have he : enrich_messages umap msgs ch = [] := by
        have : msgs = [] := List.isEmpty_iff.mp hm
        subst this
        rfl
      exact Or.inr (Or.inl ⟨msgs, rfl, he, by simp [sync_job, hf, hm]⟩)

/-- Claim C3: the durable watermark file is written only after a fully
successful upsert; on any failing cycle (fetch, embed or upsert error) it
is left unchanged and a failure is recorded; when advanced, the channel's
entry becomes the maximum origin timestamp among the just-processed
messages together with the current wall-clock time, and the maximum is an
element of, and an upper bound (in the source's lexicographic string
order) of, those messages' timestamps. -/
theorem C3_watermark_discipline (world : SyncWorld) (umap : List (String × String))
    (ch nowIso : String) (nowEpoch : ℚ) (st : List (String × WatermarkEntry))
    (tr : TrackerState) :
    ((sync_job world umap ch nowIso nowEpoch st tr).succeeded = false →
        (sync_job world umap ch nowIso nowEpoch st tr).syncState = st
        ∧ (sync_job world umap ch nowIso nowEpoch st tr).tracker
            = record_failure tr nowEpoch nowIso)
    ∧ ((sync_job world umap ch nowIso nowEpoch st tr).syncState ≠ st →
        (sync_job world umap ch nowIso nowEpoch st tr).succeeded = true
        ∧ ∃ msgs first rest embs cnt,
            fetchLoop world.fetch 10 none [] = .ok msgs
            ∧ enrich_messages umap msgs ch = first :: rest
            ∧ world.embed (first :: rest) = .ok embs
            ∧ world.upsert ((first :: rest).zip embs) = .ok cnt
            ∧ wmFind (sync_job world umap ch nowIso nowEpoch st tr).syncState ch
                = some ⟨pyMaxTs first.timestamp (rest.map (·.timestamp)), nowIso⟩)
    ∧ (∀ (first : EnrichedMsg) (rest : List EnrichedMsg),
        (pyMaxTs first.timestamp (rest.map (·.timestamp)) = first.timestamp
          ∨ pyMaxTs first.timestamp (rest.map (·.timestamp)) ∈ rest.map (·.timestamp))
        ∧ ∀ m ∈ first :: rest,
            strLt (pyMaxTs first.timestamp (rest.map (·.timestamp))).data
              m.timestamp.data = false) := by
  refine ⟨?_, ?_, ?_⟩
  · intro h
    rcases sync_job_cases world umap ch nowIso nowEpoch st tr with
      ⟨e, hf, heq⟩ | ⟨msgs, hf, he, heq⟩ | ⟨msgs, first, rest, e, hf, he, hemb, heq⟩
      | ⟨msgs, first, rest, embs, e, hf, he, hemb, hup, heq⟩
      | ⟨msgs, first, rest, embs, cnt, hf, he, hemb, hup, heq⟩
    · rw [heq]
      exact ⟨rfl, rfl⟩
    · rw [heq] at h
      exact absurd h (by simp)
    · rw [heq]
      exact ⟨rfl, rfl⟩
    · rw [heq]
      exact ⟨rfl, rfl⟩
    · rw [heq] at h
      exact absurd h (by simp)
  · intro h
    rcases sync_job_cases world umap ch nowIso nowEpoch st tr with
      ⟨e, hf, heq⟩ | ⟨msgs, hf, he, heq⟩ | ⟨msgs, first, rest, e, hf, he, hemb, heq⟩
      | ⟨msgs, first, rest, embs, e, hf, he, hemb, hup, heq⟩
      | ⟨msgs, first, rest, embs, cnt, hf, he, hemb, hup, heq⟩
    · rw [heq] at h
      exact absurd rfl h
    · rw [heq] at h
      exact absurd rfl h
    · rw [heq] at h
      exact absurd rfl h
    · rw [heq] at h
      exact absurd rfl h
    · rw [heq]
      refine ⟨rfl, msgs, first, rest, embs, cnt, hf, he, hemb, hup, ?_⟩
      exact wmFind_wmInsert_self st ch _
  · intro first rest
    refine ⟨pyMaxTs_mem first.timestamp (rest.map (·.timestamp)), ?_⟩
    intro m hm
    have hts : m.timestamp ∈ first.timestamp :: rest.map (·.timestamp) := by
      rcases List.mem_cons.mp hm with h' | h'
      · subst h'
        exact List.mem_cons_self _ _
      · exact List.mem_cons_of_mem _ (List.mem_map_of_mem _ h')
    exact pyMaxTs_ub first.timestamp (rest.map (·.timestamp)) m.timestamp hts

/-- Witness for C3: a cycle whose page fetch raises a read-timeout leaves
the watermark file exactly as it was. -/
theorem C3_witness :
    (sync_job
        ⟨fun _ => .error ⟨"read timeout", "ReadTimeout"⟩, fun _ => .ok [], fun _ => .ok 0⟩
        [] "C1" "2025-01-01T00:00:00" 0
        [("C1", ⟨"5", "old"⟩)] TrackerState.initial).succeeded = false
    ∧ (sync_job
        ⟨fun _ => .error ⟨"read timeout", "ReadTimeout"⟩, fun _ => .ok [], fun _ => .ok 0⟩
        [] "C1" "2025-01-01T00:00:00" 0
        [("C1", ⟨"5", "old"⟩)] TrackerState.initial).syncState
      = [("C1", ⟨"5", "old"⟩)] := by
  refine ⟨rfl, ?_⟩
  exact ((C3_watermark_discipline
      ⟨fun _ => .error ⟨"read timeout", "ReadTimeout"⟩, fun _ => .ok [], fun _ => .ok 0⟩
      [] "C1" "2025-01-01T00:00:00" 0
      [("C1", ⟨"5", "old"⟩)] TrackerState.initial).1 rfl).1

theorem normSq_nonneg (a : List ℚ) : 0 ≤ normSq a := by
  induction a with
  | nil => simp [normSq, dotQ]
  | cons x xs ih =>
    simp only [normSq, dotQ, List.zipWith_cons_cons, List.sum_cons] at *
    nlinarith [mul_self_nonneg x]

theorem mem_insertBy {α : Type} (le : α → α → Bool) (x a : α) (l : List α) :
    a ∈ insertBy le x l ↔ a = x ∨ a ∈ l := by
  induction l with
  | nil => simp [insertBy]
  | cons y ys ih =>
    simp only [insertBy]
    by_cases h : le x y = true
    · rw [if_pos h]
      simp
    · rw [if_neg h]
      simp only [List.mem_cons, ih]
      tauto

theorem mem_sortBy {α : Type} (le : α → α → Bool) (a : α) (l : List α) :
    a ∈ sortBy le l ↔ a ∈ l := by
  induction l with
  | nil => simp [sortBy]
  | cons x xs ih =>
    simp only [sortBy, mem_insertBy, ih, List.mem_cons]

theorem pairwise_insertBy {α : Type} (le : α → α → Bool) (P : α → Prop)
    (htot : ∀ a b, P a → P b → le a b = true ∨ le b a = true)
    (htrans : ∀ a b c, P a → P b → P c → le a b = true → le b c = true → le a c = true)
    (x : α) (l : List α) (hPx : P x) (hPl : ∀ y ∈ l, P y)
    (hl : l.Pairwise fun a b => le a b = true) :
    (insertBy le x l).Pairwise fun a b => le a b = true := by
  induction l with
  | nil => simp [insertBy]
  | cons y ys ih =>
    rcases List.pairwise_cons.mp hl with ⟨hy, hys⟩
    simp only [insertBy]
    by_cases h : le x y = true
    · rw [if_pos h]
      refine List.pairwise_cons.mpr ⟨?_, hl⟩
      intro z hz
      rcases List.mem_cons.mp hz with h' | hz'
      · subst h'
        exact h
      · exact htrans x y z hPx (hPl y (List.mem_cons_self _ _))
          (hPl z (List.mem_cons_of_mem _ hz')) h (hy z hz')
    · have hyx : le y x = true := by
        rcases htot x y hPx (hPl y (List.mem_cons_self _ _)) with h' | h'
        · exact absurd h' h
        · exact h'
      rw [if_neg h]
      refine List.pairwise_cons.mpr
        ⟨?_, ih (fun z hz => hPl z (List.mem_cons_of_mem _ hz)) hys⟩
      intro z hz
      rcases (mem_insertBy le x z ys).mp hz with h' | hz'
      · subst h'
        exact hyx
      · exact hy z hz'

theorem pairwise_sortBy {α : Type} (le : α → α → Bool) (P : α → Prop)
    (htot : ∀ a b, P a → P b → le a b = true ∨ le b a = true)
    (htrans : ∀ a b c, P a → P b → P c → le a b = true → le b c = true → le a c = true)
    (l : List α) (hPl : ∀ y ∈ l, P y) :
    (sortBy le l).Pairwise fun a b => le a b = true := by
  induction l with
  | nil => simp [sortBy]
  | cons x xs ih =>
    simp only [sortBy]
    refine pairwise_insertBy le P htot htrans x (sortBy le xs)
      (hPl x (List.mem_cons_self _ _)) ?_ ?_
    · intro y hy
      exact hPl y (List.mem_cons_of_mem _ ((mem_sortBy le y xs).mp hy))
    · exact ih fun y hy => hPl y (List.mem_cons_of_mem _ hy)

theorem sq_le_nonneg_imp {A B : ℝ} (hA : 0 ≤ A) (hB : 0 ≤ B) (h : A ^ 2 ≤ B ^ 2) :
    A ≤ B := by
  nlinarith

theorem sq_le_nonpos_imp {A B : ℝ} (hA : A ≤ 0) (hB : B ≤ 0) (h : B ^ 2 ≤ A ^ 2) :
    A ≤ B := by
  nlinarith

theorem simLE_total (d1 p1 d2 p2 : ℚ) (h1 : 0 < p1) (h2 : 0 < p2) :
    simLE d1 p1 d2 p2 = true ∨ simLE d2 p2 d1 p1 = true := by
  unfold simLE
  by_cases hd1 : d1 < 0
  · by_cases hd2 : 0 ≤ d2
    · left
      simp [hd1, hd2]
    · by_cases hcmp : d2 ^ 2 * p1 ≤ d1 ^ 2 * p2
      · left
        simp [hd1, hd2, hcmp]
      · right
        have hd2' : d2 < 0 := not_le.mp hd2
        have hd1' : ¬ 0 ≤ d1 := not_le.mpr hd1
        simp only [hd2', if_true, hd1', if_false, decide_eq_true_eq]
        linarith [not_le.mp hcmp]
  · by_cases hd2 : d2 < 0
    · right
      have hd1' : 0 ≤ d1 := not_lt.mp hd1
      simp [hd2, hd1']
    · rcases le_total (d1 ^ 2 * p2) (d2 ^ 2 * p1) with hcmp | hcmp
      · left
        simp [hd1, hd2, hcmp]
      · right
        simp [hd2, hd1, hcmp]

theorem simLE_trans {d1 p1 d2 p2 d3 p3 : ℚ} (h1 : 0 < p1) (h2 : 0 < p2) (h3 : 0 < p3)
    (h12 : simLE d1 p1 d2 p2 = true) (h23 : simLE d2 p2 d3 p3 = true) :
    simLE d1 p1 d3 p3 = true := by
  unfold simLE at h12 h23 ⊢
  by_cases hd1 : d1 < 0
  · by_cases hd3 : 0 ≤ d3
    · simp [hd1, hd3]
    · have hd3' : d3 < 0 := not_le.mp hd3
      by_cases hd2 : 0 ≤ d2
      · have hd2' : ¬ d2 < 0 := not_lt.mpr hd2
        simp [hd2', hd3', not_le.mpr hd3'] at h23
      · have hd2' : d2 < 0 := not_le.mp hd2
        simp only [hd1, if_true, hd2, if_false, decide_eq_true_eq] at h12
        simp only [hd2', if_true, hd3, if_false, decide_eq_true_eq] at h23
        simp only [hd1, if_true, hd3, if_false, decide_eq_true_eq]
        nlinarith [mul_le_mul_of_nonneg_right h12 (le_of_lt h3),
          mul_le_mul_of_nonneg_right h23 (le_of_lt h1)]
  · have hd1' : 0 ≤ d1 := not_lt.mp hd1
    by_cases hd2 : d2 < 0
    · simp [hd1, hd2] at h12
    · have hd2' : 0 ≤ d2 := not_lt.mp hd2
      by_cases hd3 : d3 < 0
      · simp [hd2, hd3] at h23
      · simp only [hd1, if_false, hd2, decide_eq_true_eq] at h12
        simp only [hd2, if_false, hd3, decide_eq_true_eq] at h23
        simp only [hd1, if_false, hd3, decide_eq_true_eq]
        nlinarith [mul_le_mul_of_nonneg_right h12 (le_of_lt h3),
          mul_le_mul_of_nonneg_right h23 (le_of_lt h1)]

theorem simLE_sound {d1 p1 d2 p2 : ℚ} (h1 : 0 < p1) (h2 : 0 < p2)
    (h : simLE d1 p1 d2 p2 = true) :
    (d1 : ℝ) / Real.sqrt (p1 : ℝ) ≤ (d2 : ℝ) / Real.sqrt (p2 : ℝ) := by
  have h1R : (0 : ℝ) < (p1 : ℝ) := by exact_mod_cast h1
  have h2R : (0 : ℝ) < (p2 : ℝ) := by exact_mod_cast h2
  have hs1 : (0 : ℝ) < Real.sqrt (p1 : ℝ) := Real.sqrt_pos.mpr h1R
  have hs2 : (0 : ℝ) < Real.sqrt (p2 : ℝ) := Real.sqrt_pos.mpr h2R
  have hsq1 : Real.sqrt (p1 : ℝ) ^ 2 = (p1 : ℝ) := Real.sq_sqrt (le_of_lt h1R)
  have hsq2 : Real.sqrt (p2 : ℝ) ^ 2 = (p2 : ℝ) := Real.sq_sqrt (le_of_lt h2R)
  rw [div_le_div_iff hs1 hs2]
  unfold simLE at h
  by_cases hd1 : d1 < 0
  · by_cases hd2 : 0 ≤ d2
    · have hA : (d1 : ℝ) * Real.sqrt (p2 : ℝ) ≤ 0 :=
        mul_nonpos_iff.mpr (Or.inr ⟨by exact_mod_cast le_of_lt hd1, le_of_lt hs2⟩)
      have hB : 0 ≤ (d2 : ℝ) * Real.sqrt (p1 : ℝ) :=
        mul_nonneg (by exact_mod_cast hd2) (le_of_lt hs1)
      linarith
    · simp only [hd1, if_true, hd2, if_false, decide_eq_true_eq] at h
      have hR : ((d2 : ℝ)) ^ 2 * (p1 : ℝ) ≤ ((d1 : ℝ)) ^ 2 * (p2 : ℝ) := by
        exact_mod_cast h
      have hd1R : (d1 : ℝ) ≤ 0 := by exact_mod_cast le_of_lt hd1
      have hd2R : (d2 : ℝ) ≤ 0 := by exact_mod_cast le_of_lt (not_le.mp hd2)
      refine sq_le_nonpos_imp
        (mul_nonpos_iff.mpr (Or.inr ⟨hd1R, le_of_lt hs2⟩))
        (mul_nonpos_iff.mpr (Or.inr ⟨hd2R, le_of_lt hs1⟩)) ?_
      calc ((d2 : ℝ) * Real.sqrt (p1 : ℝ)) ^ 2
          = (d2 : ℝ) ^ 2 * (p1 : ℝ) := by rw [mul_pow, hsq1]
        _ ≤ (d1 : ℝ) ^ 2 * (p2 : ℝ) := hR
        _ = ((d1 : ℝ) * Real.sqrt (p2 : ℝ)) ^ 2 := by rw [mul_pow, hsq2]
  · by_cases hd2 : d2 < 0
    · simp [hd1, hd2] at h
    · simp only [hd1, if_false, hd2, decide_eq_true_eq] at h
      have hR : ((d1 : ℝ)) ^ 2 * (p2 : ℝ) ≤ ((d2 : ℝ)) ^ 2 * (p1 : ℝ) := by
        exact_mod_cast h
      have hd1R : (0 : ℝ) ≤ (d1 : ℝ) := by exact_mod_cast not_lt.mp hd1
      have hd2R : (0 : ℝ) ≤ (d2 : ℝ) := by exact_mod_cast not_lt.mp hd2
      refine sq_le_nonneg_imp
        (mul_nonneg hd1R (le_of_lt hs2)) (mul_nonneg hd2R (le_of_lt hs1)) ?_
      calc ((d1 : ℝ) * Real.sqrt (p2 : ℝ)) ^ 2
          = (d1 : ℝ) ^ 2 * (p2 : ℝ) := by rw [mul_pow, hsq2]
        _ ≤ (d2 : ℝ) ^ 2 * (p1 : ℝ) := hR
        _ = ((d2 : ℝ) * Real.sqrt (p1 : ℝ)) ^ 2 := by rw [mul_pow, hsq1]

theorem rowScore_some {q : List ℚ} {row : StoredRow} {e : Scored}
    (h : rowScore q row = some e) :
    ∃ v, row.embedding = StoredEmbedding.vec v ∧ v.length = q.length
      ∧ e.simNum = dotQ q v ∧ e.simDen = normSq q * normSq v := by
  rcases hemb : row.embedding with _ | _ | v
  · simp [rowScore, hemb] at h
  · simp [rowScore, hemb] at h
  · by_cases hl : v.length = q.length
    · simp only [rowScore, hemb, hl, ne_eq, not_true_eq_false, if_false,
        Option.some.injEq] at h
      refine ⟨v, rfl, hl, ?_, ?_⟩
      · rw [← h]
      · rw [← h]
    · simp [rowScore, hemb, hl] at h

theorem sim_eq_cosineSim {q v : List ℚ} {e : Scored}
    (hn : e.simNum = dotQ q v) (hd : e.simDen = normSq q * normSq v) :
    Scored.sim e = cosineSim q v := by
  unfold Scored.sim cosineSim
  rw [hn, hd, Rat.cast_mul, Real.sqrt_mul (by exact_mod_cast normSq_nonneg q)]

/-- Claim C1 counterexample: against query [1, 0] with limit 5, a stored
row with vector [-1, 0] (cosine similarity -1, below the 0.35 floor) and
a stored row with the zero-norm vector [0, 0] are BOTH returned by the
fallback search — the function applies no minSimilarity floor, and the
zero-norm row is scored (its similarity denominator is 0, the source's
0/0 = NaN) rather than skipped. -/
theorem C1_counterexample :
    ((search_messages [1, 0] 5
        [⟨1, "m1", "alice", "c", .vec [-1, 0]⟩,
         ⟨2, "m2", "bob", "c", .vec [0, 0]⟩]).map
          fun e => (e.id, e.simNum, e.simDen))
      = [(1, -1, 1), (2, 0, 0)]
    ∧ cosineSim [1, 0] [-1, 0] = -1
    ∧ ¬ ((7 : ℝ) / 20 ≤ -1)
    ∧ normSq [(0 : ℚ), 0] = 0 := by
  refine ⟨?_, ?_, by norm_num, by norm_num [normSq, dotQ]⟩
  · norm_num [search_messages, rowScore, dotQ, normSq, sortBy, insertBy, scoredDescLE, simLE]
  · have hq : normSq [(1 : ℚ), 0] = 1 := by norm_num [normSq, dotQ]
    have hv : normSq [(-1 : ℚ), 0] = 1 := by norm_num [normSq, dotQ]
    have hd : dotQ [(1 : ℚ), 0] [-1, 0] = -1 := by norm_num [dotQ]
    rw [cosineSim, hq, hv, hd]
    norm_num [Real.sqrt_one]

/-- Claim C1 amended: when every scored (row, query) pair has nonzero
norms, the fallback search returns at most `limit` results, sorted by
descending cosine similarity, and every returned result is the score of
one of the stored rows whose vector parsed and matched the query's
dimensionality (absent, unparseable and mismatched rows are skipped); but
no minSimilarity floor is applied, and a zero-norm stored vector is
scored and included rather than skipped. -/
theorem C1_amended_fallback_search (q : List ℚ) (lim : Nat) (rows : List StoredRow)
    (hp : ∀ e ∈ rows.filterMap (rowScore q), 0 < e.simDen) :
    (search_messages q lim rows).length ≤ lim
    ∧ (search_messages q lim rows).Pairwise
        (fun a b => Scored.sim b ≤ Scored.sim a)
    ∧ (∀ e ∈ search_messages q lim rows, ∃ row ∈ rows, rowScore q row = some e
        ∧ ∃ v, row.embedding = StoredEmbedding.vec v ∧ v.length = q.length
            ∧ Scored.sim e = cosineSim q v) := by
  have hmem_sorted : ∀ e, e ∈ sortBy scoredDescLE (rows.filterMap (rowScore q)) →
      e ∈ rows.filterMap (rowScore q) := fun e he =>
    (mem_sortBy scoredDescLE e _).mp he
  have hmem_search : ∀ e, e ∈ search_messages q lim rows →
      e ∈ rows.filterMap (rowScore q) := by
    intro e he
    exact hmem_sorted e (List.take_subset _ _ he)
  refine ⟨List.length_take_le _ _, ?_, ?_⟩
  · have htot : ∀ a b : Scored, 0 < a.simDen → 0 < b.simDen →
        scoredDescLE a b = true ∨ scoredDescLE b a = true := by
      intro a b ha hb
      have ha' : ¬ a.simDen = 0 := ne_of_gt ha
      have hb' : ¬ b.simDen = 0 := ne_of_gt hb
      simp only [scoredDescLE, ha', hb', or_self, if_false]
      exact simLE_total b.simNum b.simDen a.simNum a.simDen hb ha
    have htrans : ∀ a b c : Scored, 0 < a.simDen → 0 < b.simDen → 0 < c.simDen →
        scoredDescLE a b = true → scoredDescLE b c = true →
        scoredDescLE a c = true := by
      intro a b c ha hb hc hab hbc
      have ha' : ¬ a.simDen = 0 := ne_of_gt ha
      have hb' : ¬ b.simDen = 0 := ne_of_gt hb
      have hc' : ¬ c.simDen = 0 := ne_of_gt hc
      simp only [scoredDescLE, ha', hb', hc', or_self, if_false] at hab hbc ⊢
      exact simLE_trans hc hb ha hbc hab
    have hsorted : (sortBy scoredDescLE (rows.filterMap (rowScore q))).Pairwise
        (fun a b => scoredDescLE a b = true) :=
      pairwise_sortBy scoredDescLE (fun r => 0 < r.simDen) htot htrans _ hp
    have htake : (search_messages q lim rows).Pairwise
        (fun a b => scoredDescLE a b = true) :=
      hsorted.sublist (List.take_sublist _ _)
    refine htake.imp_of_mem ?_
    intro a b ha hb hab
    have hpa : 0 < a.simDen := hp a (hmem_search a ha)
    have hpb : 0 < b.simDen := hp b (hmem_search b hb)
    have ha' : ¬ a.simDen = 0 := ne_of_gt hpa
    have hb' : ¬ b.simDen = 0 := ne_of_gt hpb
    simp only [scoredDescLE, ha', hb', or_self, if_false] at hab
    exact simLE_sound hpb hpa hab
  · intro e he
    rcases List.mem_filterMap.mp (hmem_search e he) with ⟨row, hrow, hscore⟩
    rcases rowScore_some hscore with ⟨v, hv, hlen, hn, hd⟩
    exact ⟨row, hrow, hscore, v, hv, hlen, sim_eq_cosineSim hn hd⟩

/-- Witness for C1's amended theorem: query [1, 0] over two unit-vector
rows with limit 2. -/
theorem C1_witness :
    (∀ e ∈ ([⟨1, "m1", "alice", "c", .vec [1, 0]⟩,
             ⟨2, "m2", "bob", "c", .vec [0, 1]⟩] : List StoredRow).filterMap
        (rowScore [1, 0]), 0 < e.simDen)
    ∧ ((search_messages [1, 0] 2
          [⟨1, "m1", "alice", "c", .vec [1, 0]⟩,
           ⟨2, "m2", "bob", "c", .vec [0, 1]⟩]).length ≤ 2
        ∧ (search_messages [1, 0] 2
            [⟨1, "m1", "alice", "c", .vec [1, 0]⟩,
             ⟨2, "m2", "bob", "c", .vec [0, 1]⟩]).Pairwise
            (fun a b => Scored.sim b ≤ Scored.sim a)
        ∧ (∀ e ∈ search_messages [1, 0] 2
            [⟨1, "m1", "alice", "c", .vec [1, 0]⟩,
             ⟨2, "m2", "bob", "c", .vec [0, 1]⟩],
            ∃ row ∈ ([⟨1, "m1", "alice", "c", .vec [1, 0]⟩,
                      ⟨2, "m2", "bob", "c", .vec [0, 1]⟩] : List StoredRow),
              rowScore [1, 0] row = some e
              ∧ ∃ v, row.embedding = StoredEmbedding.vec v ∧ v.length = ([1, 0] : List ℚ).length
                  ∧ Scored.sim e = cosineSim [1, 0] v)) :=
  ⟨by
      intro e he
      norm_num [rowScore, dotQ, normSq] at he
      rcases he with h | h <;> (rw [← h]; norm_num),
    C1_amended_fallback_search [1, 0] 2
      [⟨1, "m1", "alice", "c", .vec [1, 0]⟩, ⟨2, "m2", "bob", "c", .vec [0, 1]⟩]
      (by
        intro e he
        norm_num [rowScore, dotQ, normSq] at he
        rcases he with h | h <;> (rw [← h]; norm_num))⟩

end Kraken
